import Mathlib

/-!
Shallow embedding of the reference-counted smart-handle library
(`src/gc/cpp/Cpp_Ptr.hpp`) and of the C allocation facade
(`src/gc/c/C_Ptr.cpp`, `src/gc/gc.h`).

The C++ code is templated over the managed value type `T`; here the managed
value is represented by its address, a `Nat`.  All executions considered are
sequential (one operation runs to completion before the next starts), so each
atomic read-modify-write is embedded as the corresponding pure update.
`size_t` arithmetic is `Nat` arithmetic modulo `2^64`.

Dynamic memory is made explicit: control blocks live in a `Heap`, a list of
slots indexed by allocation order.  `delete this` marks the slot's block as
gone (`cb := none`) and bumps the slot's free counter; `delete p` on the
managed value bumps the slot's destroy counter, so "destroyed exactly once" /
"freed exactly once" are statements about those counters.  An operation the
C++ code would perform on already-freed memory (undefined behaviour) is
embedded as a no-op on the heap; the claims proved below only exercise it on
live blocks.
-/

namespace GCProof

/-- Width of `size_t` (the numeral is `2^64`): all counter arithmetic in
the source is on `std::atomic<size_t>`, i.e. modulo `2^64`. -/
def usize : Nat := 18446744073709551616

/-- Structure `GC::ControlBlock<T>` (Cpp_Ptr.hpp lines 20-108): strong and weak
counters, the managed pointer (`none` = `nullptr`), and the
`object_destroyed_` flag. -/
structure ControlBlock where
  gc_strong_count : Nat
  gc_weak_count : Nat
  ptr : Option Nat
  object_destroyed : Bool
deriving Repr, DecidableEq

/-- Source `ControlBlock::ControlBlock(T* p)`: strong 1, weak 0, flag clear. -/
def ControlBlock.init (p : Option Nat) : ControlBlock :=
  { gc_strong_count := 1, gc_weak_count := 0, ptr := p, object_destroyed := false }

/-- Source `ControlBlock::add_strong`: `fetch_add(1)` on the strong counter. -/
def ControlBlock.add_strong (c : ControlBlock) : ControlBlock :=
  { c with gc_strong_count := (c.gc_strong_count + 1) % usize }

/-- Source `ControlBlock::add_weak`: `fetch_add(1)` on the weak counter. -/
def ControlBlock.add_weak (c : ControlBlock) : ControlBlock :=
  { c with gc_weak_count := (c.gc_weak_count + 1) % usize }

/-- Source `ControlBlock::try_add_strong`: the CAS loop, run without interference,
fails iff the strong count is zero and otherwise increments it. -/
def ControlBlock.try_add_strong (c : ControlBlock) : Bool × ControlBlock :=
  if c.gc_strong_count > 0 then
    (true, { c with gc_strong_count := (c.gc_strong_count + 1) % usize })
  else
    (false, c)

/-- Source `ControlBlock::destroy_object`: CAS the flag false→true; the winner
exchanges `ptr_` to null and, if it was non-null, deletes the value.
Returns the updated block and the number of value deletions performed
(0 or 1). -/
def ControlBlock.destroy_object (c : ControlBlock) : ControlBlock × Nat :=
  if c.object_destroyed then
    (c, 0)
  else
    match c.ptr with
    | some _ => ({ c with object_destroyed := true, ptr := none }, 1)
    | none => ({ c with object_destroyed := true, ptr := none }, 0)

/-- Source `ControlBlock::strong_count`. -/
def ControlBlock.strong_count (c : ControlBlock) : Nat := c.gc_strong_count

/-- Source `ControlBlock::weak_count`. -/
def ControlBlock.weak_count (c : ControlBlock) : Nat := c.gc_weak_count

/-- Source `ControlBlock::is_alive`: strong count positive. -/
def ControlBlock.is_alive (c : ControlBlock) : Bool := c.gc_strong_count > 0

/-- Source `ControlBlock::get_ptr`. -/
def ControlBlock.get_ptr (c : ControlBlock) : Option Nat := c.ptr

/-- One heap slot: the control block allocated there (`none` once
`delete this` ran), plus event counters for `delete p` on the managed
value (`destroys`) and `delete this` on the block (`frees`). -/
structure BlockSlot where
  cb : Option ControlBlock
  destroys : Nat
  frees : Nat
deriving Repr, DecidableEq

/-- The heap of control blocks; a block's id is its index. -/
structure Heap where
  blocks : List BlockSlot
deriving Repr, DecidableEq

/-- Look up the control block with id `i` (if its slot exists and it has
not been freed). -/
def Heap.cbAt (h : Heap) (i : Nat) : Option ControlBlock :=
  (h.blocks.getD i ⟨none, 0, 0⟩).cb

/-- Allocation `new ControlBlock<T>(ptr)`: append a fresh block, return its id. -/
def Heap.allocBlock (h : Heap) (p : Option Nat) : Heap × Nat :=
  (⟨h.blocks ++ [⟨some (ControlBlock.init p), 0, 0⟩]⟩, h.blocks.length)

/-- Replace slot `i`. -/
def Heap.setSlot (h : Heap) (i : Nat) (s : BlockSlot) : Heap :=
  ⟨h.blocks.set i s⟩

/-- Method `add_strong` called through a handle's block pointer `i`. -/
def Heap.add_strong (h : Heap) (i : Nat) : Heap :=
  match h.blocks.getD i ⟨none, 0, 0⟩ with
  | ⟨some c, d, f⟩ => h.setSlot i ⟨some c.add_strong, d, f⟩
  | ⟨none, _, _⟩ => h

/-- Method `add_weak` called through a handle's block pointer `i`. -/
def Heap.add_weak (h : Heap) (i : Nat) : Heap :=
  match h.blocks.getD i ⟨none, 0, 0⟩ with
  | ⟨some c, d, f⟩ => h.setSlot i ⟨some c.add_weak, d, f⟩
  | ⟨none, _, _⟩ => h

/-- Method `try_add_strong` called through a handle's block pointer `i`;
returns the heap and the success flag. -/
def Heap.try_add_strong (h : Heap) (i : Nat) : Heap × Bool :=
  match h.blocks.getD i ⟨none, 0, 0⟩ with
  | ⟨some c, d, f⟩ =>
    let r := c.try_add_strong
    (h.setSlot i ⟨some r.2, d, f⟩, r.1)
  | ⟨none, _, _⟩ => (h, false)

/-- Source `ControlBlock::release_strong` (lines 57-66): `fetch_sub(1)`; the caller
that saw the old value 1 runs `destroy_object` and then, if the weak count
reads 0, `delete this`. -/
def Heap.release_strong (h : Heap) (i : Nat) : Heap :=
  match h.blocks.getD i ⟨none, 0, 0⟩ with
  | ⟨some c, d, f⟩ =>
    let old := c.gc_strong_count
    let c1 := { c with gc_strong_count := (c.gc_strong_count + (usize - 1)) % usize }
    if old = 1 then
      let r := c1.destroy_object
      if r.1.gc_weak_count = 0 then
        h.setSlot i ⟨none, d + r.2, f + 1⟩
      else
        h.setSlot i ⟨some r.1, d + r.2, f⟩
    else
      h.setSlot i ⟨some c1, d, f⟩
  | ⟨none, _, _⟩ => h

/-- Source `ControlBlock::release_weak` (lines 68-76): `fetch_sub(1)`; the caller
that saw the old value 1 frees the block if the strong count reads 0. -/
def Heap.release_weak (h : Heap) (i : Nat) : Heap :=
  match h.blocks.getD i ⟨none, 0, 0⟩ with
  | ⟨some c, d, f⟩ =>
    let old := c.gc_weak_count
    let c1 := { c with gc_weak_count := (c.gc_weak_count + (usize - 1)) % usize }
    if old = 1 then
      if c1.gc_strong_count = 0 then
        h.setSlot i ⟨none, d, f + 1⟩
      else
        h.setSlot i ⟨some c1, d, f⟩
    else
      h.setSlot i ⟨some c1, d, f⟩
  | ⟨none, _, _⟩ => h

/-- Structure `GC::Ptr<T>`'s per-instance fields: `ctrl_` (a block id or null) and
`is_weak_`. -/
structure Ptr where
  ctrl : Option Nat
  is_weak : Bool
deriving Repr, DecidableEq

/-- Constructors `Ptr()` / `Ptr(nullptr)`: the null handle. -/
def Ptr.null : Ptr := ⟨none, false⟩

/-- Source `Ptr::release` (lines 345-356): if `ctrl_` is non-null, release the
matching counter. -/
def Ptr.release (p : Ptr) (h : Heap) : Heap :=
  match p.ctrl with
  | none => h
  | some i => if p.is_weak then h.release_weak i else h.release_strong i

/-- Copy constructor `Ptr(const Ptr&)` (lines 138-152): bump the matching
counter if the source block is non-null, then adopt the source's fields.
Returns the heap and the new handle. -/
def Ptr.copy (p : Ptr) (h : Heap) : Heap × Ptr :=
  match p.ctrl with
  | none => (h, ⟨none, p.is_weak⟩)
  | some i =>
    if p.is_weak then (h.add_weak i, ⟨some i, true⟩)
    else (h.add_strong i, ⟨some i, false⟩)

/-- Move constructor `Ptr(Ptr&&)` (lines 154-157): exchange the source's
fields to null/false; no counter changes.  Returns (moved-to, source-after). -/
def Ptr.move (p : Ptr) : Ptr × Ptr :=
  (⟨p.ctrl, p.is_weak⟩, Ptr.null)

/-- Source `Ptr::Ptr(T* ptr)` (lines 126-136) in the non-throwing case: null raw
pointer gives the null handle and allocates nothing; otherwise a fresh
control block (strong 1) is allocated. -/
def ptrFromRaw (h : Heap) (p : Option Nat) : Heap × Ptr :=
  match p with
  | none => (h, Ptr.null)
  | some v =>
    let r := h.allocBlock (some v)
    (r.1, ⟨some r.2, false⟩)

/-- Source `Ptr::Ptr(T* ptr)` (lines 126-136) with the control-block allocation
outcome made explicit: `allocOk = false` models `new ControlBlock<T>(ptr)`
throwing, in which case the `catch` runs `delete ptr` and rethrows.
Returns `Except.error` when the exception propagates, and a flag recording
whether the raw value was deleted on this path. -/
def ptrFromRawAlloc (h : Heap) (p : Option Nat) (allocOk : Bool) :
    Except Unit (Heap × Ptr) × Bool :=
  match p with
  | none => (Except.ok (h, Ptr.null), false)
  | some v =>
    if allocOk then
      let r := h.allocBlock (some v)
      (Except.ok (r.1, ⟨some r.2, false⟩), false)
    else
      (Except.error (), true)

/-- Source `Ptr::get` (lines 253-263): null block → null; weak handle → null;
otherwise the block's managed pointer. -/
def Ptr.get (p : Ptr) (h : Heap) : Option Nat :=
  match p.ctrl with
  | none => none
  | some i =>
    if p.is_weak then none
    else
      match h.cbAt i with
      | some c => c.get_ptr
      | none => none

/-- Source `Ptr::expired` (lines 248-251): null block or block not alive. -/
def Ptr.expired (p : Ptr) (h : Heap) : Bool :=
  match p.ctrl with
  | none => true
  | some i =>
    match h.cbAt i with
    | some c => !c.is_alive
    | none => true

/-- Source `Ptr::operator bool` (lines 279-285). -/
def Ptr.boolValid (p : Ptr) (h : Heap) : Bool :=
  if p.is_weak then !(p.expired h) else (p.get h).isSome

/-- Source `Ptr::ref_count` (lines 287-290). -/
def Ptr.ref_count (p : Ptr) (h : Heap) : Nat :=
  match p.ctrl with
  | none => 0
  | some i =>
    match h.cbAt i with
    | some c => c.strong_count
    | none => 0

/-- Source `Ptr::weak_count` (lines 292-295). -/
def Ptr.weak_count (p : Ptr) (h : Heap) : Nat :=
  match p.ctrl with
  | none => 0
  | some i =>
    match h.cbAt i with
    | some c => c.weak_count
    | none => 0

/-- Source `Ptr::operator==` (lines 328-330): compares the two `get()` results. -/
def Ptr.eq (a b : Ptr) (h : Heap) : Bool :=
  a.get h = b.get h

/-- Source `Ptr::safe` (lines 207-219), the derive-weak helper: null or weak
argument gives the null handle; otherwise a fresh weak handle to the
argument's block, with `add_weak`. -/
def Ptr.safe (strong_ref : Ptr) (h : Heap) : Heap × Ptr :=
  match strong_ref.ctrl with
  | none => (h, Ptr.null)
  | some i =>
    if strong_ref.is_weak then (h, Ptr.null)
    else (h.add_weak i, ⟨some i, true⟩)

/-- Source `Ptr::lock` (lines 221-232): a non-weak or null-block handle returns
`Ptr(*this)` (the counted copy); a weak handle tries `try_add_strong`,
returning a strong handle to the same block on success and the null handle
on failure.  Returns the heap and the result handle. -/
def Ptr.lock (p : Ptr) (h : Heap) : Heap × Ptr :=
  match p.ctrl with
  | none => p.copy h
  | some i =>
    if p.is_weak then
      let r := h.try_add_strong i
      if r.2 then (r.1, ⟨some i, false⟩)
      else (r.1, Ptr.null)
    else
      p.copy h

/-- Source `Ptr::Ref` (lines 234-246): `aliased` models `this == &other`.  If not
aliased, release self; then only when other's block is non-null and other is
not weak, `add_weak` on it and store (block, weak) into self; otherwise
self's fields are left as they were (the code stores nothing).  Returns the
heap and self's new field values. -/
def Ptr.Ref (self other : Ptr) (aliased : Bool) (h : Heap) : Heap × Ptr :=
  if aliased then (h, self)
  else
    let h1 := self.release h
    match other.ctrl with
    | some i =>
      if other.is_weak then (h1, self)
      else (h1.add_weak i, ⟨some i, true⟩)
    | none => (h1, self)

/-- Source `Ptr::reset()` (lines 305-309): release, then null the fields. -/
def Ptr.reset (p : Ptr) (h : Heap) : Heap × Ptr :=
  (p.release h, Ptr.null)

/-!
## The C allocation facade (`src/gc/c/C_Ptr.cpp`, `src/gc/gc.h`)

`gc_local_malloc` and `gc_local_calloc` build a function-local
`LocalPtrCpp` whose `std::shared_ptr<char>` member uniquely owns a
`new char[n]` array with a logging deleter, then return `*(PtrBase*)&cpp`
— a copy of only the `raw` field.  C++ then destroys the local `cpp` as
the call returns, which drops the `shared_ptr`'s only owner and runs the
deleter.  The model makes allocation, the log line, and the `delete[]`
explicit events so their order is provable.
-/

/-- One `new char[n]` allocation: start address, byte contents (`none` =
uninitialized), and whether it is still allocated. -/
structure RawBlock where
  addr : Nat
  bytes : List (Option Nat)
  live : Bool
deriving Repr, DecidableEq

/-- Observable events of the facade, in program order. -/
inductive CEvent where
  | alloc (addr : Nat) (size : Nat)
  | logFree (addr : Nat)
  | free (addr : Nat)
deriving Repr, DecidableEq

/-- The C-side heap: fresh-address counter, every raw block ever
allocated, and the event trace. -/
structure CHeap where
  nextAddr : Nat
  raws : List RawBlock
  events : List CEvent
deriving Repr, DecidableEq

/-- Allocation `new char[n]`: a fresh block of `n` uninitialized bytes. -/
def CHeap.allocArray (h : CHeap) (n : Nat) : CHeap × Nat :=
  (⟨h.nextAddr + n + 1, h.raws ++ [⟨h.nextAddr, List.replicate n none, true⟩],
    h.events ++ [CEvent.alloc h.nextAddr n]⟩, h.nextAddr)

/-- The block allocated at `addr`, if any. -/
def CHeap.blockAt (h : CHeap) (addr : Nat) : Option RawBlock :=
  h.raws.find? (fun b => b.addr = addr)

/-- Source `DebugDeleter::operator()` (C_Ptr.cpp lines 7-13): print the
"Freed memory @ addr" line, **then** `delete[]` the array. -/
def DebugDeleter (h : CHeap) (addr : Nat) : CHeap :=
  { h with
    raws := h.raws.map (fun b => if b.addr = addr then { b with live := false } else b),
    events := (h.events ++ [CEvent.logFree addr]) ++ [CEvent.free addr] }

/-- A `std::shared_ptr<char>` with `DebugDeleter`: only its unique owner
matters here, so it is just the held address (`none` = empty). -/
structure SharedPtrChar where
  held : Option Nat
deriving Repr, DecidableEq

/-- Struct `LocalPtrCpp` (C_Ptr.cpp lines 16-23): the raw address plus the
`shared_ptr` holder. -/
structure LocalPtrCpp where
  raw : Nat
  holder : SharedPtrChar
deriving Repr, DecidableEq

/-- Destructor `~LocalPtrCpp`: destroying the local destroys its `shared_ptr`; as the
sole owner, that runs `DebugDeleter` on the held array. -/
def LocalPtrCpp.destroy (c : LocalPtrCpp) (h : CHeap) : CHeap :=
  match c.holder.held with
  | some addr => DebugDeleter h addr
  | none => h

/-- Struct `PtrBase` (gc.h lines 12-14): the C-visible struct, only `raw`. -/
structure PtrBase where
  raw : Nat
deriving Repr, DecidableEq

/-- Source `gc_local_malloc` (C_Ptr.cpp lines 28-33): allocate `size` bytes into
the local `cpp`'s holder, set `raw`, return a `PtrBase` copy of `raw`;
the local `cpp` is destroyed as the call returns, so the holder's only
owner drops and `DebugDeleter` runs before the caller sees the result. -/
def gc_local_malloc (h : CHeap) (size : Nat) : CHeap × PtrBase :=
  let r := h.allocArray size
  let cpp : LocalPtrCpp := ⟨r.2, ⟨some r.2⟩⟩
  let ret : PtrBase := ⟨cpp.raw⟩
  (cpp.destroy r.1, ret)

/-- Zeroing `memset(p, 0, n)` on the whole block at `addr`. -/
def CHeap.memsetZero (h : CHeap) (addr : Nat) (n : Nat) : CHeap :=
  { h with
    raws := h.raws.map (fun b =>
      if b.addr = addr then { b with bytes := List.replicate n (some 0) } else b) }

/-- Source `gc_local_calloc` (C_Ptr.cpp lines 36-43): `total = count * size` in
`size_t` arithmetic, allocate `total` bytes, `memset` them to zero, and
return as `gc_local_malloc` does (the local again dies at the return). -/
def gc_local_calloc (h : CHeap) (count size : Nat) : CHeap × PtrBase :=
  let total := (count * size) % usize
  let r := h.allocArray total
  let h1 := r.1.memsetZero r.2 total
  let cpp : LocalPtrCpp := ⟨r.2, ⟨some r.2⟩⟩
  let ret : PtrBase := ⟨cpp.raw⟩
  (cpp.destroy h1, ret)

/-- Macro `gc_new_array(T, count)` (gc.h lines 30-31): exactly
`(T*)gc_local_calloc(count, sizeof(T)).raw`, no other logic. -/
def gc_new_array (h : CHeap) (sizeofT count : Nat) : CHeap × Nat :=
  ((gc_local_calloc h count sizeofT).1, (gc_local_calloc h count sizeofT).2.raw)

/-!
### Claim C2

One value, one control block (block 0), and an arbitrary finite sequence of
copy / move / release operations on its handles, as in `Ptr`'s copy
constructor, move constructor and `reset()`/destructor.
-/

/-- Handle-level operations on the handles of one value: copy handle `j`
(the copy is appended as a new handle), move from handle `j` (the moved-to
handle is appended, the source becomes null), release handle `j`
(`reset()` / the destructor: release, then the fields are nulled and the
handle is never released again).  An index naming no handle is a no-op. -/
inductive Op where
  | copy (j : Nat)
  | mv (j : Nat)
  | rel (j : Nat)
deriving Repr, DecidableEq

/-- The heap plus every handle created so far (released and moved-from
handles stay behind as null entries). -/
structure MState where
  heap : Heap
  handles : List Ptr
deriving Repr, DecidableEq

/-- Execute one operation. -/
def step (s : MState) (op : Op) : MState :=
  match op with
  | Op.copy j =>
    match s.handles[j]? with
    | none => s
    | some p => ⟨(p.copy s.heap).1, s.handles ++ [(p.copy s.heap).2]⟩
  | Op.mv j =>
    match s.handles[j]? with
    | none => s
    | some p => ⟨s.heap, (s.handles.set j p.move.2) ++ [p.move.1]⟩
  | Op.rel j =>
    match s.handles[j]? with
    | none => s
    | some p => ⟨(p.reset s.heap).1, s.handles.set j (p.reset s.heap).2⟩

/-- Execute a sequence of operations. -/
def run (s : MState) (ops : List Op) : MState := ops.foldl step s

/-- The initial state: a single handle constructed from raw value `v`,
with its fresh control block as block 0. -/
def init (v : Nat) : MState :=
  ⟨(ptrFromRaw ⟨[]⟩ (some v)).1, [(ptrFromRaw ⟨[]⟩ (some v)).2]⟩

/-- Is this handle a strong handle to block 0? -/
def isStrong0 (p : Ptr) : Bool := decide (p.ctrl = some 0) && !p.is_weak

/-- The number of live strong handles to block 0. -/
def countStrong (l : List Ptr) : Nat := (l.filter isStrong0).length

/-- How many times `delete p` ran on block 0's managed value. -/
def destroysOf (s : MState) : Nat := (s.heap.blocks.getD 0 ⟨none, 0, 0⟩).destroys

/-- How many times `delete this` ran on block 0. -/
def freesOf (s : MState) : Nat := (s.heap.blocks.getD 0 ⟨none, 0, 0⟩).frees

/-- Every handle the one-value scenario can create is a non-weak handle
that is null or refers to block 0. -/
def HandlesOK (l : List Ptr) : Prop :=
  ∀ p ∈ l, p.is_weak = false ∧ (p.ctrl = none ∨ p.ctrl = some 0)

/-- The C2 invariant: block 0's strong counter equals the number of live
strong handles while the block is alive (value not yet destroyed, nothing
freed), and once no strong handle is left the block is gone with exactly
one value destruction and exactly one free. -/
def Inv (s : MState) : Prop :=
  HandlesOK s.handles ∧
  ∃ slot : BlockSlot, s.heap.blocks = [slot] ∧
    ((∃ c : ControlBlock, slot.cb = some c ∧
        c.gc_strong_count = countStrong s.handles ∧
        0 < countStrong s.handles ∧
        c.gc_weak_count = 0 ∧ c.object_destroyed = false ∧ c.ptr ≠ none ∧
        slot.destroys = 0 ∧ slot.frees = 0) ∨
      (slot.cb = none ∧ countStrong s.handles = 0 ∧
        slot.destroys = 1 ∧ slot.frees = 1))

/-- If `cbAt` finds a block, the index is inside the heap. -/
lemma Heap.lt_of_cbAt_eq_some {h : Heap} {i : Nat} {c : ControlBlock}
    (hc : h.cbAt i = some c) : i < h.blocks.length := by
  by_contra hge
  push_neg at hge
  rw [Heap.cbAt, List.getD_eq_default _ _ hge] at hc
  cases hc

/-- Reading back the slot just written. -/
lemma Heap.cbAt_setSlot_self {h : Heap} {i : Nat} (s : BlockSlot)
    (hlt : i < h.blocks.length) : (h.setSlot i s).cbAt i = s.cb := by
  rw [Heap.setSlot, Heap.cbAt]
  have hlt' : i < (h.blocks.set i s).length := by
    simpa using hlt
  rw [List.getD_eq_getElem _ _ hlt', List.getElem_set_self]

/-- A weak handle's `get()` is always null, whatever the heap contents. -/
lemma Ptr.get_of_weak {p : Ptr} (h : Heap) (hw : p.is_weak = true) : p.get h = none := by
  rcases p with ⟨pc, pw⟩
  cases hw
  cases pc <;> rfl

/-- Reading `get` on a strong handle reads the block's managed pointer. -/
lemma Ptr.get_strong_eq (i : Nat) (h : Heap) :
    Ptr.get ⟨some i, false⟩ h =
      match h.cbAt i with
      | some c => c.get_ptr
      | none => none := rfl

/-- The `operator==` comparison, unfolded. -/
lemma Ptr.eq_def (a b : Ptr) (h : Heap) :
    Ptr.eq a b h = decide (a.get h = b.get h) := rfl

/-! ### Claim C5 -/

/-- The modulus `usize` is positive. -/
lemma usize_pos : 0 < usize := by
  rw [usize]
  omega

/-- A `fetch_sub(1)` on a counter reading 1 yields 0. -/
lemma one_fetch_sub : (1 + (usize - 1)) % usize = 0 := rfl

/-- A `fetch_add(1)` on a counter reading 0 yields 1. -/
lemma zero_fetch_add : (0 + 1) % usize = 1 := rfl

lemma countStrong_cons (a : Ptr) (t : List Ptr) :
    countStrong (a :: t) = (if isStrong0 a then 1 else 0) + countStrong t := by
  cases ha : isStrong0 a
  · simp [countStrong, List.filter_cons, ha]
  · simp [countStrong, List.filter_cons, ha, Nat.add_comm]

lemma countStrong_append (l : List Ptr) (p : Ptr) :
    countStrong (l ++ [p]) = countStrong l + (if isStrong0 p then 1 else 0) := by
  rw [countStrong, countStrong, List.filter_append, List.length_append]
  cases hp : isStrong0 p <;> simp [List.filter, hp]

lemma countStrong_set {l : List Ptr} {j : Nat} {p : Ptr} (q : Ptr)
    (hj : l[j]? = some p) :
    countStrong (l.set j q) + (if isStrong0 p then 1 else 0) =
      countStrong l + (if isStrong0 q then 1 else 0) := by
  induction l generalizing j with
  | nil => cases hj
  | cons a t ih =>
    cases j with
    | zero =>
      rw [List.getElem?_cons_zero, Option.some.injEq] at hj
      subst hj
      rw [List.set_cons_zero, countStrong_cons, countStrong_cons]
      omega
    | succ n =>
      rw [List.getElem?_cons_succ] at hj
      rw [List.set_cons_succ, countStrong_cons, countStrong_cons]
      have := ih hj
      omega

lemma countStrong_le (l : List Ptr) : countStrong l ≤ l.length :=
  List.length_filter_le _ _

lemma countStrong_pos {l : List Ptr} {p : Ptr} (hm : p ∈ l)
    (hs : isStrong0 p = true) : 0 < countStrong l := by
  rw [countStrong, List.length_pos]
  intro hnil
  have hmem : p ∈ l.filter isStrong0 := List.mem_filter.mpr ⟨hm, hs⟩
  rw [hnil] at hmem
  cases hmem

/-- A `fetch_add(1)` without wraparound. -/
lemma fetch_add_small {k : Nat} (h : k + 1 < usize) : (k + 1) % usize = k + 1 :=
  Nat.mod_eq_of_lt h

/-- A `fetch_sub(1)` without wraparound. -/
lemma fetch_sub_small {k : Nat} (h0 : 0 < k) (h1 : k < usize) :
    (k + (usize - 1)) % usize = k - 1 := by
  have hu : 0 < usize := usize_pos
  have hsplit : k + (usize - 1) = (k - 1) + usize := by omega
  rw [hsplit, Nat.add_mod_right, Nat.mod_eq_of_lt]
  omega

/-- Computing `add_strong` on the singleton heap. -/
lemma add_strong_on (c : ControlBlock) (d f : Nat) :
    Heap.add_strong ⟨[⟨some c, d, f⟩]⟩ 0 = ⟨[⟨some c.add_strong, d, f⟩]⟩ := rfl

/-- Computing `release_strong` on the singleton heap, with the branching exposed. -/
lemma release_strong_on (c : ControlBlock) (d f : Nat) :
    Heap.release_strong ⟨[⟨some c, d, f⟩]⟩ 0 =
      if c.gc_strong_count = 1 then
        (let r := ControlBlock.destroy_object
          { c with gc_strong_count := (c.gc_strong_count + (usize - 1)) % usize }
         if r.1.gc_weak_count = 0 then (⟨[⟨none, d + r.2, f + 1⟩]⟩ : Heap)
         else ⟨[⟨some r.1, d + r.2, f⟩]⟩)
      else ⟨[⟨some { c with
        gc_strong_count := (c.gc_strong_count + (usize - 1)) % usize }, d, f⟩]⟩ := rfl

/-- A step grows the handle list by at most one. -/
lemma step_handles_length (s : MState) (op : Op) :
    (step s op).handles.length ≤ s.handles.length + 1 := by
  cases op with
  | copy j => cases hj : s.handles[j]? <;> simp [step, hj]
  | mv j => cases hj : s.handles[j]? <;> simp [step, hj]
  | rel j => cases hj : s.handles[j]? <;> simp [step, hj]

/-- Releasing the last strong reference (count 1, no weak handles):
destroy the value and free the block. -/
lemma release_strong_one (v d f : Nat) :
    Heap.release_strong ⟨[⟨some ⟨1, 0, some v, false⟩, d, f⟩]⟩ 0 =
      ⟨[⟨none, d + 1, f + 1⟩]⟩ := rfl

/-- Releasing a strong reference that is not the last: only the counter
changes. -/
lemma release_strong_many (k v d f : Nat) (hk : k ≠ 1) :
    Heap.release_strong ⟨[⟨some ⟨k, 0, some v, false⟩, d, f⟩]⟩ 0 =
      ⟨[⟨some ⟨(k + (usize - 1)) % usize, 0, some v, false⟩, d, f⟩]⟩ := by
  rw [release_strong_on, if_neg hk]

/-- Every copy/move/release step preserves the C2 invariant (as long as
the handle count stays below `2^64`, which any physically realizable
sequence does). -/
lemma step_preserves {s : MState} (op : Op) (hInv : Inv s)
    (hlen : s.handles.length + 1 < usize) : Inv (step s op) := by
  obtain ⟨⟨blks⟩, hl⟩ := s
  obtain ⟨hH, ⟨scb, sd, sf⟩, hblocks, hcase⟩ := hInv
  dsimp only at hH hblocks hcase hlen ⊢
  subst hblocks
  cases op with
  | copy j =>
    unfold step
    dsimp only
    cases hj : hl[j]? with
    | none => exact ⟨hH, ⟨scb, sd, sf⟩, rfl, hcase⟩
    | some p =>
      obtain ⟨hpw, hpc⟩ := hH p (List.getElem?_mem hj)
      obtain ⟨pc, pw⟩ := p
      dsimp only at hpw hpc
      subst hpw
      rcases hpc with hnull | hblk
      · subst hnull
        show Inv ⟨⟨[⟨scb, sd, sf⟩]⟩, hl ++ [⟨none, false⟩]⟩
        have hce : countStrong (hl ++ [(⟨none, false⟩ : Ptr)]) = countStrong hl := by
          rw [countStrong_append]
          rfl
        refine ⟨?_, ⟨scb, sd, sf⟩, rfl, ?_⟩
        · intro q hq
          rcases List.mem_append.mp hq with hq1 | hq2
          · exact hH q hq1
          · rw [List.mem_singleton] at hq2
            subst hq2
            exact ⟨rfl, Or.inl rfl⟩
        · rw [show (⟨⟨[⟨scb, sd, sf⟩]⟩, hl ++ [⟨none, false⟩]⟩ : MState).handles =
            hl ++ [(⟨none, false⟩ : Ptr)] from rfl, hce]
          exact hcase
      · subst hblk
        show Inv ⟨Heap.add_strong ⟨[⟨scb, sd, sf⟩]⟩ 0, hl ++ [⟨some 0, false⟩]⟩
        have hpos0 : 0 < countStrong hl := countStrong_pos (List.getElem?_mem hj) rfl
        rcases hcase with ⟨c, hcb, hcount, hpos, hw0, hod, hptr, hd0, hf0⟩ |
          ⟨hcb, hzero, hd1, hf1⟩
        · subst hcb hd0 hf0
          rw [add_strong_on]
          have hk1 : c.gc_strong_count + 1 < usize := by
            have hle := countStrong_le hl
            omega
          refine ⟨?_, ⟨some c.add_strong, 0, 0⟩, rfl,
            Or.inl ⟨c.add_strong, rfl, ?_, ?_, hw0, hod, hptr, rfl, rfl⟩⟩
          · intro q hq
            rcases List.mem_append.mp hq with hq1 | hq2
            · exact hH q hq1
            · rw [List.mem_singleton] at hq2
              subst hq2
              exact ⟨rfl, Or.inr rfl⟩
          · show (c.gc_strong_count + 1) % usize = countStrong (hl ++ [⟨some 0, false⟩])
            rw [fetch_add_small hk1, countStrong_append, hcount]
            rfl
          · show 0 < countStrong (hl ++ [⟨some 0, false⟩])
            rw [countStrong_append]
            omega
        · exact absurd hzero (by omega)
  | mv j =>
    unfold step
    dsimp only
    cases hj : hl[j]? with
    | none => exact ⟨hH, ⟨scb, sd, sf⟩, rfl, hcase⟩
    | some p =>
      show Inv ⟨⟨[⟨scb, sd, sf⟩]⟩, (hl.set j Ptr.null) ++ [p]⟩
      have hset := countStrong_set (l := hl) (j := j) Ptr.null hj
      have hnull0 : (if isStrong0 Ptr.null then 1 else 0) = 0 := rfl
      rw [hnull0] at hset
      have hcs : countStrong ((hl.set j Ptr.null) ++ [p]) = countStrong hl := by
        rw [countStrong_append]
        omega
      refine ⟨?_, ⟨scb, sd, sf⟩, rfl, ?_⟩
      · intro q hq
        rcases List.mem_append.mp hq with hq1 | hq2
        · rcases List.mem_or_eq_of_mem_set hq1 with hq3 | hq4
          · exact hH q hq3
          · subst hq4
            exact ⟨rfl, Or.inl rfl⟩
        · rw [List.mem_singleton] at hq2
          rw [hq2]
          exact hH p (List.getElem?_mem hj)
      · rw [show (⟨⟨[⟨scb, sd, sf⟩]⟩, (hl.set j Ptr.null) ++ [p]⟩ : MState).handles =
          (hl.set j Ptr.null) ++ [p] from rfl, hcs]
        exact hcase
  | rel j =>
    unfold step
    dsimp only
    cases hj : hl[j]? with
    | none => exact ⟨hH, ⟨scb, sd, sf⟩, rfl, hcase⟩
    | some p =>
      obtain ⟨hpw, hpc⟩ := hH p (List.getElem?_mem hj)
      obtain ⟨pc, pw⟩ := p
      dsimp only at hpw hpc
      subst hpw
      have hset := countStrong_set (l := hl) (j := j) Ptr.null hj
      have hnull0 : (if isStrong0 Ptr.null then 1 else 0) = 0 := rfl
      rw [hnull0] at hset
      rcases hpc with hnull | hblk
      · subst hnull
        show Inv ⟨⟨[⟨scb, sd, sf⟩]⟩, hl.set j Ptr.null⟩
        have hns : (if isStrong0 ⟨none, false⟩ then 1 else 0) = 0 := rfl
        rw [hns] at hset
        refine ⟨?_, ⟨scb, sd, sf⟩, rfl, ?_⟩
        · intro q hq
          rcases List.mem_or_eq_of_mem_set hq with hq1 | hq2
          · exact hH q hq1
          · subst hq2
            exact ⟨rfl, Or.inl rfl⟩
        · rw [show (⟨⟨[⟨scb, sd, sf⟩]⟩, hl.set j Ptr.null⟩ : MState).handles =
            hl.set j Ptr.null from rfl, show countStrong (hl.set j Ptr.null) =
            countStrong hl from by omega]
          exact hcase
      · subst hblk
        have hpos0 : 0 < countStrong hl := countStrong_pos (List.getElem?_mem hj) rfl
        have hs1 : (if isStrong0 ⟨some 0, false⟩ then 1 else 0) = 1 := rfl
        rw [hs1] at hset
        rcases hcase with ⟨c, hcb, hcount, hpos, hw0, hod, hptr, hd0, hf0⟩ |
          ⟨hcb, hzero, hd1, hf1⟩
        · subst hcb hd0 hf0
          obtain ⟨k, w, cp, od⟩ := c
          dsimp only at hcount hw0 hod hptr
          subst hw0 hod
          obtain ⟨v, hv⟩ := Option.ne_none_iff_exists'.mp hptr
          subst hv
          show Inv ⟨Heap.release_strong ⟨[⟨some ⟨k, 0, some v, false⟩, 0, 0⟩]⟩ 0,
            hl.set j Ptr.null⟩
          have hHset : HandlesOK (hl.set j Ptr.null) := by
            intro q hq
            rcases List.mem_or_eq_of_mem_set hq with hq1 | hq2
            · exact hH q hq1
            · subst hq2
              exact ⟨rfl, Or.inl rfl⟩
          by_cases hk : k = 1
          · subst hk
            rw [release_strong_one]
            refine ⟨hHset, ⟨none, 0 + 1, 0 + 1⟩, rfl, Or.inr ⟨rfl, ?_, rfl, rfl⟩⟩
            show countStrong (hl.set j Ptr.null) = 0
            omega
          · rw [release_strong_many k v 0 0 hk]
            have hklt : k < usize := by
              have hle := countStrong_le hl
              omega
            refine ⟨hHset, ⟨some ⟨(k + (usize - 1)) % usize, 0, some v, false⟩, 0, 0⟩,
              rfl, Or.inl ⟨⟨(k + (usize - 1)) % usize, 0, some v, false⟩, rfl, ?_, ?_,
              rfl, rfl, by simp, rfl, rfl⟩⟩
            · show (k + (usize - 1)) % usize = countStrong (hl.set j Ptr.null)
              rw [fetch_sub_small (by omega) hklt]
              omega
            · show 0 < countStrong (hl.set j Ptr.null)
              omega
        · exact absurd hzero (by omega)

/-- Any operation sequence preserves the invariant, starting anywhere. -/
lemma run_preserves : ∀ (ops : List Op) (s : MState), Inv s →
    s.handles.length + ops.length < usize → Inv (run s ops) := by
  intro ops
  induction ops with
  | nil => exact fun s hInv _ => hInv
  | cons op ops ih =>
    intro s hInv hlen
    rw [List.length_cons] at hlen
    have h1 : Inv (step s op) := step_preserves op hInv (by omega)
    have h2 : (step s op).handles.length ≤ s.handles.length + 1 :=
      step_handles_length s op
    exact ih (step s op) h1 (by omega)

/-- The initial state satisfies the invariant. -/
lemma Inv_init (v : Nat) : Inv (init v) := by
  have h1 : countStrong (init v).handles = 1 := rfl
  refine ⟨?_, ⟨some ⟨1, 0, some v, false⟩, 0, 0⟩, rfl,
    Or.inl ⟨⟨1, 0, some v, false⟩, rfl, h1.symm, by omega, rfl, rfl, by simp, rfl, rfl⟩⟩
  intro p hp
  rw [show (init v).handles = [⟨some 0, false⟩] from rfl, List.mem_singleton] at hp
  subst hp
  exact ⟨rfl, Or.inr rfl⟩

/-! ### Claim C1 -/

/-- C1: evaluation of `Ptr::Ref` at the failing inputs.  First conjunct:
self is the sole strong owner of block 0 and other is the null handle; after
`self.Ref(other)` the block has been released (value destroyed and block
freed) yet self's fields still read `(some 0, strong)` — self is a stale
strong-looking handle, not the null handle the claim requires.  Second
conjunct: when other aliases self, `Ref` returns immediately and self stays
a strong handle, contradicting "self is never a strong handle after the
call". -/
theorem claim_C1_code_exec :
    (Ptr.Ref ⟨some 0, false⟩ Ptr.null false ⟨[⟨some (ControlBlock.init (some 7)), 0, 0⟩]⟩ =
      (⟨[⟨none, 1, 1⟩]⟩, ⟨some 0, false⟩)) ∧
    (Ptr.Ref ⟨some 0, false⟩ ⟨some 0, false⟩ true ⟨[⟨some (ControlBlock.init (some 7)), 0, 0⟩]⟩ =
      (⟨[⟨some (ControlBlock.init (some 7)), 0, 0⟩]⟩, ⟨some 0, false⟩)) := by
  decide

/-- C2: for every managed value and every finite sequence of copy, move
and release operations on its handles (shorter than `2^64` steps, as any
realizable sequence is), the value is never destroyed nor the block freed
more than once; while at least one strong handle is live nothing has been
destroyed or freed; and as soon as no strong handle is left — in
particular after copying the original N times and releasing all N+1
handles in any order — the value has been destroyed exactly once and the
control block freed exactly once. -/
theorem claim_C2 (v : Nat) (ops : List Op) (hops : ops.length + 1 < usize) :
    (destroysOf (run (init v) ops) ≤ 1 ∧ freesOf (run (init v) ops) ≤ 1) ∧
    (0 < countStrong (run (init v) ops).handles →
      destroysOf (run (init v) ops) = 0 ∧ freesOf (run (init v) ops) = 0) ∧
    (countStrong (run (init v) ops).handles = 0 →
      destroysOf (run (init v) ops) = 1 ∧ freesOf (run (init v) ops) = 1) := by
  have hInv : Inv (run (init v) ops) := by
    refine run_preserves ops (init v) (Inv_init v) ?_
    rw [show (init v).handles.length = 1 from rfl]
    omega
  obtain ⟨hH, ⟨scb, sd, sf⟩, hblocks, hcase⟩ := hInv
  have hdest : destroysOf (run (init v) ops) = sd := by
    rw [destroysOf, hblocks]
    rfl
  have hfree : freesOf (run (init v) ops) = sf := by
    rw [freesOf, hblocks]
    rfl
  rcases hcase with ⟨c, hcb, hcount, hpos, hw0, hod, hptr, hd0, hf0⟩ |
    ⟨hcb, hzero, hd1, hf1⟩
  · subst hd0 hf0
    rw [hdest, hfree]
    exact ⟨⟨by omega, by omega⟩, fun _ => ⟨rfl, rfl⟩, fun h0 => absurd hpos (by omega)⟩
  · subst hd1 hf1
    rw [hdest, hfree]
    exact ⟨⟨le_refl 1, le_refl 1⟩, fun hp => absurd hzero (by omega), fun _ => ⟨rfl, rfl⟩⟩

/-- C2 witness: the theorem applied to concrete runs — after one copy
(two strong handles live) nothing is destroyed or freed; after copying
once and releasing both handles the value is destroyed exactly once and
the block freed exactly once. -/
theorem claim_C2_witness :
    (destroysOf (run (init 7) [Op.copy 0]) = 0 ∧
      freesOf (run (init 7) [Op.copy 0]) = 0) ∧
    (destroysOf (run (init 7) [Op.copy 0, Op.rel 0, Op.rel 1]) = 1 ∧
      freesOf (run (init 7) [Op.copy 0, Op.rel 0, Op.rel 1]) = 1) :=
  ⟨(claim_C2 7 [Op.copy 0] (by decide)).2.1 (by decide),
   (claim_C2 7 [Op.copy 0, Op.rel 0, Op.rel 1] (by decide)).2.2 (by decide)⟩

/-! ### Claim C3 -/

/-- C3 counterexample: block 0 is live (strong 1, weak 1, value at address 5)
and `w` is a weak handle to it; `w.lock()` succeeds and yields a strong
handle with strong count 2, but that handle does **not** compare equal to the
original `w` under `operator==`, because a weak handle's `get()` is null. -/
theorem claim_C3_counterexample :
    (Ptr.lock ⟨some 0, true⟩ ⟨[⟨some ⟨1, 1, some 5, false⟩, 0, 0⟩]⟩).2 = ⟨some 0, false⟩ ∧
    ((Ptr.lock ⟨some 0, true⟩ ⟨[⟨some ⟨1, 1, some 5, false⟩, 0, 0⟩]⟩).1.cbAt 0).map
      ControlBlock.strong_count = some 2 ∧
    Ptr.eq (Ptr.lock ⟨some 0, true⟩ ⟨[⟨some ⟨1, 1, some 5, false⟩, 0, 0⟩]⟩).2
      ⟨some 0, true⟩
      (Ptr.lock ⟨some 0, true⟩ ⟨[⟨some ⟨1, 1, some 5, false⟩, 0, 0⟩]⟩).1 = false := by
  decide

/-- C3 amended: `lock` on a strong (or null-block) handle is the counted
copy `Ptr(*this)`; on a weak handle to a destroyed block (strong count 0) it
returns the null handle; on a weak handle to a live block it increments the
strong count by one and returns a strong handle to the *same control block*,
whose `get()` is the managed value's address — but that handle is not
`==`-equal to the original weak handle when the value is present, since a weak
handle's `get()` is null. -/
theorem claim_C3_amended (h : Heap) (i : Nat) (c : ControlBlock) :
    (∀ p : Ptr, p.is_weak = false ∨ p.ctrl = none → Ptr.lock p h = Ptr.copy p h) ∧
    (h.cbAt i = some c → c.gc_strong_count = 0 →
      (Ptr.lock ⟨some i, true⟩ h).2 = Ptr.null) ∧
    (h.cbAt i = some c → 0 < c.gc_strong_count →
      (Ptr.lock ⟨some i, true⟩ h).2 = ⟨some i, false⟩ ∧
      (Ptr.lock ⟨some i, true⟩ h).1.cbAt i =
        some { c with gc_strong_count := (c.gc_strong_count + 1) % usize } ∧
      (Ptr.lock ⟨some i, true⟩ h).2.get (Ptr.lock ⟨some i, true⟩ h).1 = c.ptr ∧
      (c.ptr ≠ none →
        Ptr.eq (Ptr.lock ⟨some i, true⟩ h).2 ⟨some i, true⟩
          (Ptr.lock ⟨some i, true⟩ h).1 = false)) := by
  refine ⟨?_, ?_, ?_⟩
  · rintro ⟨pc, pw⟩ hp
    rcases hp with hw | hc
    · cases hw
      cases pc <;> rfl
    · cases hc
      rfl
  · intro hc h0
    cases hdef : h.blocks.getD i ⟨none, 0, 0⟩ with
    | mk cb d f =>
      rw [Heap.cbAt, hdef] at hc
      dsimp only at hc
      subst hc
      have htry : h.try_add_strong i =
          (h.setSlot i ⟨some (ControlBlock.try_add_strong c).2, d, f⟩,
            (ControlBlock.try_add_strong c).1) := by
        unfold Heap.try_add_strong
        rw [hdef]
      have h1 : ControlBlock.try_add_strong c = (false, c) := by
        rw [ControlBlock.try_add_strong, if_neg]
        rw [h0]
        exact lt_irrefl 0
      have hlock0 : Ptr.lock ⟨some i, true⟩ h =
          (if (h.try_add_strong i).2 then ((h.try_add_strong i).1, ⟨some i, false⟩)
           else ((h.try_add_strong i).1, Ptr.null)) := rfl
      rw [hlock0, htry, h1]
      rfl
  · intro hc hpos
    have hlt := Heap.lt_of_cbAt_eq_some hc
    cases hdef : h.blocks.getD i ⟨none, 0, 0⟩ with
    | mk cb d f =>
      rw [Heap.cbAt, hdef] at hc
      dsimp only at hc
      subst hc
      have htry : h.try_add_strong i =
          (h.setSlot i ⟨some (ControlBlock.try_add_strong c).2, d, f⟩,
            (ControlBlock.try_add_strong c).1) := by
        unfold Heap.try_add_strong
        rw [hdef]
      have h1 : ControlBlock.try_add_strong c =
          (true, { c with gc_strong_count := (c.gc_strong_count + 1) % usize }) := by
        rw [ControlBlock.try_add_strong, if_pos hpos]
      have hlock0 : Ptr.lock ⟨some i, true⟩ h =
          (if (h.try_add_strong i).2 then ((h.try_add_strong i).1, ⟨some i, false⟩)
           else ((h.try_add_strong i).1, Ptr.null)) := rfl
      have hlock : Ptr.lock ⟨some i, true⟩ h =
          (h.setSlot i ⟨some { c with gc_strong_count := (c.gc_strong_count + 1) % usize },
            d, f⟩, ⟨some i, false⟩) := by
        rw [hlock0, htry, h1]
        rfl
      have hcb : (Ptr.lock ⟨some i, true⟩ h).1.cbAt i =
          some { c with gc_strong_count := (c.gc_strong_count + 1) % usize } := by
        rw [hlock]
        exact Heap.cbAt_setSlot_self _ hlt
      have hget1 : (Ptr.lock ⟨some i, true⟩ h).2.get (Ptr.lock ⟨some i, true⟩ h).1 = c.ptr := by
        rw [hlock]
        show Ptr.get ⟨some i, false⟩
          (h.setSlot i ⟨some { c with gc_strong_count := (c.gc_strong_count + 1) % usize },
            d, f⟩) = c.ptr
        rw [Ptr.get_strong_eq, Heap.cbAt_setSlot_self _ hlt]
        rfl
      refine ⟨by rw [hlock], hcb, hget1, ?_⟩
      intro hptr
      obtain ⟨v, hv⟩ := Option.ne_none_iff_exists'.mp hptr
      have hgetw : Ptr.get ⟨some i, true⟩ (Ptr.lock ⟨some i, true⟩ h).1 = none :=
        Ptr.get_of_weak _ rfl
      rw [Ptr.eq_def, hget1, hgetw, hv]
      rfl

/-- C3 witness: the amended lock theorem applied at concrete inputs — a weak
handle to a live block (strong 1), a weak handle to a destroyed block
(strong 0), and a strong handle. -/
theorem claim_C3_witness :
    (Ptr.lock ⟨some 0, true⟩ ⟨[⟨some ⟨1, 1, some 5, false⟩, 0, 0⟩]⟩).2 = ⟨some 0, false⟩ ∧
    (Ptr.lock ⟨some 0, true⟩ ⟨[⟨some ⟨0, 1, none, true⟩, 1, 0⟩]⟩).2 = Ptr.null ∧
    Ptr.lock ⟨some 0, false⟩ ⟨[⟨some ⟨1, 0, some 5, false⟩, 0, 0⟩]⟩ =
      Ptr.copy ⟨some 0, false⟩ ⟨[⟨some ⟨1, 0, some 5, false⟩, 0, 0⟩]⟩ :=
  ⟨((claim_C3_amended ⟨[⟨some ⟨1, 1, some 5, false⟩, 0, 0⟩]⟩ 0
      ⟨1, 1, some 5, false⟩).2.2 (by decide) (by decide)).1,
   (claim_C3_amended ⟨[⟨some ⟨0, 1, none, true⟩, 1, 0⟩]⟩ 0
      ⟨0, 1, none, true⟩).2.1 (by decide) (by decide),
   (claim_C3_amended ⟨[⟨some ⟨1, 0, some 5, false⟩, 0, 0⟩]⟩ 0
      ⟨1, 0, some 5, false⟩).1 ⟨some 0, false⟩ (Or.inl rfl)⟩

/-! ### Claim C4 -/

/-- C4 counterexample: a strong handle and a weak handle to the same live
value (block 0, strong 1, weak 1, value address 5) compare **unequal** under
`operator==`, because the weak handle's `get()` is null while the strong
handle's `get()` is the value address; the claim says they compare equal. -/
theorem claim_C4_counterexample :
    Ptr.eq ⟨some 0, false⟩ ⟨some 0, true⟩ ⟨[⟨some ⟨1, 1, some 5, false⟩, 0, 0⟩]⟩ = false ∧
    ((⟨[⟨some ⟨1, 1, some 5, false⟩, 0, 0⟩]⟩ : Heap).cbAt 0).map ControlBlock.is_alive =
      some true := by
  decide

/-- C4 amended: `a == b` holds iff `a.get()` and `b.get()` agree, where a
weak handle's `get()` is always null.  Hence: against a weak (or null)
right-hand side, equality reduces to "is `a.get()` null" — so null equals
null and equals any weak/expired handle — but a strong handle to a live
value compares unequal to every weak handle, including one referring to the
same value. -/
theorem claim_C4_amended (h : Heap) (a b : Ptr) (i : Nat) (c : ControlBlock) :
    (Ptr.eq a b h = true ↔ a.get h = b.get h) ∧
    (b.is_weak = true → Ptr.eq a b h = decide (a.get h = none)) ∧
    (a.ctrl = none → b.is_weak = true → Ptr.eq a b h = true) ∧
    (a.ctrl = some i → a.is_weak = false → h.cbAt i = some c → c.ptr ≠ none →
      b.is_weak = true → Ptr.eq a b h = false) := by
  refine ⟨?_, ?_, ?_, ?_⟩
  · rw [Ptr.eq_def]
    exact decide_eq_true_iff
  · intro hbw
    rw [Ptr.eq_def, Ptr.get_of_weak h hbw]
  · intro hac hbw
    rcases a with ⟨ac, aw⟩
    cases hac
    rw [Ptr.eq_def, Ptr.get_of_weak h hbw]
    rfl
  · intro hac haw hcb hptr hbw
    obtain ⟨v, hv⟩ := Option.ne_none_iff_exists'.mp hptr
    rcases a with ⟨ac, aw⟩
    cases hac
    cases haw
    have hga : Ptr.get ⟨some i, false⟩ h = some v := by
      rw [Ptr.get_strong_eq, hcb]
      exact hv
    rw [Ptr.eq_def, hga, Ptr.get_of_weak h hbw]
    rfl

/-- C4 witness: the amended equality theorem applied at concrete inputs —
null vs weak handles are equal, and a strong and a weak handle to the same
live value are unequal. -/
theorem claim_C4_witness :
    Ptr.eq Ptr.null ⟨some 0, true⟩ ⟨[⟨some ⟨1, 1, some 5, false⟩, 0, 0⟩]⟩ = true ∧
    Ptr.eq ⟨some 0, false⟩ ⟨some 0, true⟩ ⟨[⟨some ⟨1, 1, some 5, false⟩, 0, 0⟩]⟩ = false :=
  ⟨(claim_C4_amended ⟨[⟨some ⟨1, 1, some 5, false⟩, 0, 0⟩]⟩ Ptr.null ⟨some 0, true⟩ 0
      ⟨1, 1, some 5, false⟩).2.2.1 rfl rfl,
   (claim_C4_amended ⟨[⟨some ⟨1, 1, some 5, false⟩, 0, 0⟩]⟩ ⟨some 0, false⟩ ⟨some 0, true⟩ 0
      ⟨1, 1, some 5, false⟩).2.2.2 rfl rfl (by decide) (by decide) rfl⟩

/-- C5: the weak-expiry scenario, step by step, for any managed value
address `v`.  Creating A gives (strong 1, weak 0); deriving the weak B gives
(strong 1, weak 1); releasing A destroys the value (destroy count 1) but
does not free the control block (free count 0, block still present);
`B.lock()` then returns the null handle and leaves the heap unchanged;
releasing B frees the control block (free count 1), i.e. the release that
observes both counters at zero performs the free. -/
theorem claim_C5 (v : Nat) :
    ptrFromRaw ⟨[]⟩ (some v) =
      (⟨[⟨some ⟨1, 0, some v, false⟩, 0, 0⟩]⟩, ⟨some 0, false⟩) ∧
    Ptr.safe ⟨some 0, false⟩ ⟨[⟨some ⟨1, 0, some v, false⟩, 0, 0⟩]⟩ =
      (⟨[⟨some ⟨1, 1, some v, false⟩, 0, 0⟩]⟩, ⟨some 0, true⟩) ∧
    Ptr.release ⟨some 0, false⟩ ⟨[⟨some ⟨1, 1, some v, false⟩, 0, 0⟩]⟩ =
      ⟨[⟨some ⟨0, 1, none, true⟩, 1, 0⟩]⟩ ∧
    Ptr.lock ⟨some 0, true⟩ ⟨[⟨some ⟨0, 1, none, true⟩, 1, 0⟩]⟩ =
      (⟨[⟨some ⟨0, 1, none, true⟩, 1, 0⟩]⟩, Ptr.null) ∧
    Ptr.release ⟨some 0, true⟩ ⟨[⟨some ⟨0, 1, none, true⟩, 1, 0⟩]⟩ =
      ⟨[⟨none, 1, 1⟩]⟩ := by
  refine ⟨rfl, ?_, ?_, by decide, by decide⟩
  · have hsafe : Ptr.safe ⟨some 0, false⟩ ⟨[⟨some ⟨1, 0, some v, false⟩, 0, 0⟩]⟩ =
        (Heap.setSlot ⟨[⟨some ⟨1, 0, some v, false⟩, 0, 0⟩]⟩ 0
          ⟨some ⟨1, (0 + 1) % usize, some v, false⟩, 0, 0⟩, ⟨some 0, true⟩) := rfl
    rw [hsafe, zero_fetch_add]
    rfl
  · have hrel : Ptr.release ⟨some 0, false⟩ ⟨[⟨some ⟨1, 1, some v, false⟩, 0, 0⟩]⟩ =
        Heap.setSlot ⟨[⟨some ⟨1, 1, some v, false⟩, 0, 0⟩]⟩ 0
          ⟨some ⟨(1 + (usize - 1)) % usize, 1, none, true⟩, 0 + 1, 0⟩ := rfl
    rw [hrel, one_fetch_sub]
    rfl

/-! ### Claim C6 -/

/-- C6: constructing a handle from a non-null raw value when control-block
allocation fails deletes the raw value (flag `true`) and propagates the
failure as an error rather than swallowing it. -/
theorem claim_C6 (h : Heap) (v : Nat) :
    ptrFromRawAlloc h (some v) false = (Except.error (), true) := rfl

/-! ### Claim C9 -/

/-- C9: constructing a handle from a null raw pointer allocates no control
block (the heap is returned unchanged) and yields the null handle, which is
not weak, reports strong and weak counts 0, `get()` null, and boolean
validity false in every heap. -/
theorem claim_C9 (h : Heap) :
    ptrFromRaw h none = (h, Ptr.null) ∧
    Ptr.null.is_weak = false ∧
    (∀ h2 : Heap, Ptr.ref_count Ptr.null h2 = 0 ∧ Ptr.weak_count Ptr.null h2 = 0 ∧
      Ptr.get Ptr.null h2 = none ∧ Ptr.boolValid Ptr.null h2 = false) :=
  ⟨rfl, rfl, fun _ => ⟨rfl, rfl, rfl, rfl⟩⟩

/-! ### Claim C10 -/

/-- C10: a weak handle's `get()` returns null in every heap — in particular
while the managed value is still alive — and conversely any handle whose
`get()` is non-null is a strong handle, so a raw pointer to the value is
obtainable only through a strong handle. -/
theorem claim_C10 (p : Ptr) (h : Heap) :
    (p.is_weak = true → p.get h = none) ∧
    (p.get h ≠ none → p.is_weak = false) := by
  constructor
  · exact fun hw => Ptr.get_of_weak h hw
  · intro hg
    cases hw : p.is_weak
    · rfl
    · exact absurd (Ptr.get_of_weak h hw) hg

/-- C10 witness: applied to a weak handle over a live block (strong count
1), and to a strong handle over the same block. -/
theorem claim_C10_witness :
    Ptr.get ⟨some 0, true⟩ ⟨[⟨some ⟨1, 1, some 5, false⟩, 0, 0⟩]⟩ = none ∧
    Ptr.is_weak ⟨some 0, false⟩ = false :=
  ⟨(claim_C10 ⟨some 0, true⟩ ⟨[⟨some ⟨1, 1, some 5, false⟩, 0, 0⟩]⟩).1 rfl,
   (claim_C10 ⟨some 0, false⟩ ⟨[⟨some ⟨1, 1, some 5, false⟩, 0, 0⟩]⟩).2 (by decide)⟩

/-! ### Claim C7 -/

/-- C7: evaluation of `gc_local_malloc` at the failing input — a call on
the empty C heap, any size.  When the call returns, the block at the
returned raw address is already freed (`live = false`), because the
function-local `LocalPtrCpp` was the lifetime object's only owner and died
at the return; the event trace shows alloc, then the log line, then the
free — so the address does *not* remain allocated after the call, contrary
to the claim (the log-before-free part of the claim is confirmed by the
event order). -/
theorem claim_C7_code_exec (size : Nat) :
    (gc_local_malloc ⟨0, [], []⟩ size).1.blockAt (gc_local_malloc ⟨0, [], []⟩ size).2.raw =
      some ⟨0, List.replicate size none, false⟩ ∧
    (gc_local_malloc ⟨0, [], []⟩ size).1.events =
      [CEvent.alloc 0 size, CEvent.logFree 0, CEvent.free 0] :=
  ⟨rfl, rfl⟩

/-! ### Claim C8 -/

/-- C8: `gc_local_calloc(count, size)` allocates a block of
`count * size % 2^64` bytes (the `size_t` product) and every byte of that
block is zero when the call returns; `gc_new_array(T, count)` is exactly
the facade call `gc_local_calloc(count, sizeof(T))` projected to `.raw`,
with no additional logic. -/
theorem claim_C8 (count size : Nat) :
    ((gc_local_calloc ⟨0, [], []⟩ count size).1.blockAt
        (gc_local_calloc ⟨0, [], []⟩ count size).2.raw).map RawBlock.bytes =
      some (List.replicate ((count * size) % usize) (some 0)) ∧
    ((gc_local_calloc ⟨0, [], []⟩ count size).1.blockAt
        (gc_local_calloc ⟨0, [], []⟩ count size).2.raw).map
      (fun b => b.bytes.length) = some ((count * size) % usize) ∧
    (∀ x ∈ List.replicate ((count * size) % usize) (some 0 : Option Nat), x = some 0) ∧
    (∀ (h2 : CHeap) (s c : Nat), gc_new_array h2 s c =
      ((gc_local_calloc h2 c s).1, (gc_local_calloc h2 c s).2.raw)) := by
  refine ⟨rfl, ?_, ?_, fun h2 s c => rfl⟩
  · have hb : ((gc_local_calloc ⟨0, [], []⟩ count size).1.blockAt
        (gc_local_calloc ⟨0, [], []⟩ count size).2.raw).map RawBlock.bytes =
        some (List.replicate ((count * size) % usize) (some 0)) := rfl
    have hlen : ∀ o : Option RawBlock, o.map RawBlock.bytes =
        some (List.replicate ((count * size) % usize) (some 0)) →
        o.map (fun b => b.bytes.length) = some ((count * size) % usize) := by
      rintro (_ | b) hmap
      · cases hmap
      · simp only [Option.map_some', Option.some.injEq] at hmap ⊢
        rw [hmap]
        simp
    exact hlen _ hb
  · intro x hx
    exact List.eq_of_mem_replicate hx

/-- C8 witness: the calloc theorem applied at count 2, size 3 — the block
holds `2 * 3 % 2^64` zero bytes, and the membership conjunct is discharged
at the concrete byte `some 0`. -/
theorem claim_C8_witness :
    ((gc_local_calloc ⟨0, [], []⟩ 2 3).1.blockAt
        (gc_local_calloc ⟨0, [], []⟩ 2 3).2.raw).map RawBlock.bytes =
      some (List.replicate (2 * 3 % usize) (some 0)) ∧
    (some 0 : Option Nat) = some 0 :=
  ⟨(claim_C8 2 3).1, (claim_C8 2 3).2.2.1 (some 0) (by decide)⟩

end GCProof
